import Mathlib

set_option maxRecDepth 4000

/- Shallow embedding of the colorhymn viewer scripts
   (src/viewer/colorhymn_rich.py and src/viewer/colorhymn_viewer.py).

   Strings are Lean String values; Python string helpers (find, slicing,
   formatting, int(-, 16)) are embedded as functions over the character
   data. Raising an exception is embedded as the error branch of Except
   or Option. -/

/- Data model: the classifier response consumed by both scripts. Tokens
   arrive as JSON arrays of strings whose arity is checked only when a
   token is unpacked, so a raw token is a list of strings. -/

structure Metadata where
  filename : String
  line_count : Int
  temperature : String
  mood : String
deriving DecidableEq, Repr

abbrev RawToken := List String

structure Document where
  metadata : Metadata
  lines : List (List RawToken)
deriving DecidableEq, Repr

/-- Semantic palette shared by render_rich (colorhymn_rich.py lines 53-57) and
ColorhymnApp.render_log (colorhymn_viewer.py lines 169-178): a dict lookup with
default value white. -/
def temp_colors (s : String) : String :=
  if s = "cool" then "cyan"
  else if s = "neutral" then "white"
  else if s = "elevated" then "yellow"
  else if s = "uneasy" then "yellow"
  else if s = "troubled" then "orange1"
  else if s = "warm" then "orange1"
  else if s = "critical" then "red"
  else "white"

def findCharAux (t : Char) : List Char → Nat → Option Nat
  | [], _ => none
  | c :: cs, i => if c = t then some i else findCharAux t cs (i + 1)

/-- Python str.find for a single character: index of the first occurrence,
none standing for the -1 of CPython. -/
def str_find (s : String) (t : Char) : Option Nat :=
  findCharAux t s.data 0

/-- Python slice s[i:]. -/
def str_drop (s : String) (i : Nat) : String :=
  String.mk (s.data.drop i)

/-- Python slice s[a:b] for a ≤ b. -/
def str_slice (s : String) (a b : Nat) : String :=
  String.mk ((s.data.drop a).take (b - a))

/-- Python format specification 5d: the decimal digits right-aligned in a
field of five characters, padded with spaces on the left. -/
def fmt5d (i : Nat) : String :=
  String.mk (List.replicate (5 - (toString i).length) ' ') ++ toString i

def hexDigitVal (c : Char) : Option Nat :=
  if '0' ≤ c ∧ c ≤ '9' then some (c.toNat - '0'.toNat)
  else if 'a' ≤ c ∧ c ≤ 'f' then some (c.toNat - 'a'.toNat + 10)
  else if 'A' ≤ c ∧ c ≤ 'F' then some (c.toNat - 'A'.toNat + 10)
  else none

def hexValAux : List Char → Nat → Option Nat
  | [], acc => some acc
  | c :: cs, acc =>
    match hexDigitVal c with
    | some v => hexValAux cs (16 * acc + v)
    | none => none

/-- Python int(s, 16), modelled for plain hexadecimal digit strings: the empty
string and any string holding a non-hex character are a ValueError. (CPython
additionally strips whitespace and accepts a sign; no call site in the two
scripts feeds it such a string under the hypotheses used below.) -/
def int16 (s : String) : Except String Nat :=
  match s.data with
  | [] => .error ("invalid literal for int with base 16: " ++ s)
  | l =>
    match hexValAux l 0 with
    | some v => .ok v
    | none => .error ("invalid literal for int with base 16: " ++ s)

/- A character-level model of json.loads restricted to the classifier response
   schema: an object carrying metadata (filename, line_count, temperature,
   mood, in that order) and lines, with no whitespace between tokens and no
   escape sequences inside strings. Every concrete input the theorems below
   feed to it is either of that shape or fails to parse in CPython as well. -/

def expectLit : List Char → List Char → Option (List Char)
  | [], s => some s
  | _, [] => none
  | l :: ls, c :: cs => if c = l then expectLit ls cs else none

def quotedAux : List Char → List Char → Option (String × List Char)
  | [], _ => none
  | c :: cs, acc =>
    if c = '"' then some (String.mk acc.reverse, cs)
    else if c = '\\' then none
    else quotedAux cs (c :: acc)

def parseQuoted : List Char → Option (String × List Char)
  | '"' :: cs => quotedAux cs []
  | _ => none

def takeDigits : List Char → List Char × List Char
  | [] => ([], [])
  | c :: cs =>
    if c.isDigit then
      let p := takeDigits cs
      (c :: p.1, p.2)
    else ([], c :: cs)

def digitsToNat (l : List Char) : Nat :=
  l.foldl (fun a c => 10 * a + (c.toNat - '0'.toNat)) 0

def parseInt : List Char → Option (Int × List Char)
  | '-' :: cs =>
    let p := takeDigits cs
    if p.1.isEmpty then none else some (-(digitsToNat p.1 : Int), p.2)
  | cs =>
    let p := takeDigits cs
    if p.1.isEmpty then none else some ((digitsToNat p.1 : Int), p.2)

def strElemsAux : Nat → List Char → List String → Option (List String × List Char)
  | 0, _, _ => none
  | fuel + 1, s, acc =>
    match parseQuoted s with
    | none => none
    | some (v, rest) =>
      match rest with
      | ',' :: r2 => strElemsAux fuel r2 (v :: acc)
      | ']' :: r2 => some ((v :: acc).reverse, r2)
      | _ => none

def parseStrArr (fuel : Nat) : List Char → Option (List String × List Char)
  | '[' :: ']' :: cs => some ([], cs)
  | '[' :: cs => strElemsAux fuel cs []
  | _ => none

def tokElemsAux : Nat → List Char → List RawToken → Option (List RawToken × List Char)
  | 0, _, _ => none
  | fuel + 1, s, acc =>
    match parseStrArr fuel s with
    | none => none
    | some (t, rest) =>
      match rest with
      | ',' :: r2 => tokElemsAux fuel r2 (t :: acc)
      | ']' :: r2 => some ((t :: acc).reverse, r2)
      | _ => none

def parseTokLine (fuel : Nat) : List Char → Option (List RawToken × List Char)
  | '[' :: ']' :: cs => some ([], cs)
  | '[' :: cs => tokElemsAux fuel cs []
  | _ => none

def lineElemsAux : Nat → List Char → List (List RawToken) → Option (List (List RawToken) × List Char)
  | 0, _, _ => none
  | fuel + 1, s, acc =>
    match parseTokLine fuel s with
    | none => none
    | some (l, rest) =>
      match rest with
      | ',' :: r2 => lineElemsAux fuel r2 (l :: acc)
      | ']' :: r2 => some ((l :: acc).reverse, r2)
      | _ => none

def parseLines (fuel : Nat) : List Char → Option (List (List RawToken) × List Char)
  | '[' :: ']' :: cs => some ([], cs)
  | '[' :: cs => lineElemsAux fuel cs []
  | _ => none

def docOfChars (input : List Char) : Option Document := do
  let cs ← expectLit "\x7b\"metadata\":\x7b\"filename\":".data input
  let (fn, cs) ← parseQuoted cs
  let cs ← expectLit ",\"line_count\":".data cs
  let (lc, cs) ← parseInt cs
  let cs ← expectLit ",\"temperature\":".data cs
  let (temp, cs) ← parseQuoted cs
  let cs ← expectLit ",\"mood\":".data cs
  let (mood, cs) ← parseQuoted cs
  let cs ← expectLit "\x7d,\"lines\":".data cs
  let (ls, cs) ← parseLines cs.length cs
  let cs ← expectLit "\x7d".data cs
  if cs.isEmpty then
    some { metadata := { filename := fn, line_count := lc,
                         temperature := temp, mood := mood },
           lines := ls }
  else none

/-- Python json.loads on the classifier response schema; the error branch
models json.JSONDecodeError. -/
def json_loads (s : String) : Except String Document :=
  match docOfChars s.data with
  | some d => .ok d
  | none => .error "Expecting value"

/-- Outcome of subprocess.run with capture_output and a timeout: either
TimeoutExpired was raised, or the process completed with an exit status and
captured stdout and stderr. -/
inductive ProcResult where
  | timedOut
  | completed (returncode : Int) (stdout : String) (stderr : String)
deriving DecidableEq, Repr

/-- The timeout argument both scripts pass to subprocess.run
(colorhymn_rich.py line 32, colorhymn_viewer.py line 131). -/
def timeout_seconds : Nat := 30

/- Styled text (rich.text.Text) is embedded as a list of segments, each a
   piece of text with the style it was appended with; the empty style stands
   for an append call without a style argument. -/

abbrev Segment := String × String

abbrev StyledLine := List Segment

/-- Unpacking of a token by the statement _, value, color = token, shared by
render_rich (line 74) and ColorhymnApp.render_log (line 195): a token of any
other arity raises ValueError. -/
def styled_tokens : List RawToken → Except String (List Segment)
  | [] => .ok []
  | t :: ts =>
    match t with
    | [_, value, color] =>
      match styled_tokens ts with
      | .ok rest => .ok ((value, color) :: rest)
      | .error m => .error m
    | _ => .error "cannot unpack token"

namespace Rich

/-- Errors raised out of colorhymn_rich.colorize_file: TimeoutExpired from
subprocess.run, the ValueError of line 38, or json.JSONDecodeError from
json.loads. -/
inductive FetchError where
  | timeoutExpired
  | valueError (msg : String)
  | jsonDecodeError (msg : String)
deriving DecidableEq, Repr

/-- The str(e) text main interpolates into its Error diagnostic. -/
def fetchErrMsg : FetchError → String
  | .timeoutExpired => "Command timed out after 30 seconds"
  | .valueError m => m
  | .jsonDecodeError m => m

/-- colorhymn_rich.colorize_file (lines 23-40): runs the classifier, locates
the first brace character in stdout, and parses the JSON from there. The exit
status of the subprocess is never inspected. -/
def colorize_file : ProcResult → Except FetchError Document
  | .timedOut => .error .timeoutExpired
  | .completed _rc out err =>
    match str_find out '\x7b' with
    | none => .error (.valueError ("No JSON output: " ++ err))
    | some i =>
      match json_loads (str_drop out i) with
      | .ok d => .ok d
      | .error m => .error (.jsonDecodeError m)

/-- Header Text built by render_rich (lines 47-63). The style of the mood
text is the variable temp_style, which was computed from the temperature
field (line 61: mood_style = temp_style). -/
def rich_header (meta : Metadata) : StyledLine :=
  let temp_style := temp_colors meta.temperature
  let mood_style := temp_style
  [("━━━ " ++ meta.filename ++ " ", "bold"),
   ("│ " ++ toString meta.line_count ++ " lines ", "dim"),
   ("│ temp: ", ""),
   (meta.temperature, temp_style),
   (" │ mood: ", ""),
   (meta.mood, mood_style),
   (" ━━━", "")]

/-- One body Text of render_rich (lines 69-77): the dim line number followed
by each token's text styled with its color. -/
def rich_line (i : Nat) (toks : List RawToken) : Except String StyledLine :=
  match styled_tokens toks with
  | .ok segs => .ok ((fmt5d i ++ " ", "dim") :: segs)
  | .error m => .error m

def rich_lines (i : Nat) : List (List RawToken) → Except String (List StyledLine)
  | [] => .ok []
  | l :: ls =>
    match rich_line i l with
    | .error m => .error m
    | .ok r =>
      match rich_lines (i + 1) ls with
      | .error m => .error m
      | .ok rest => .ok (r :: rest)

/-- colorhymn_rich.render_rich (lines 43-77): the sequence of printed Text
values — header, blank line, then one line per entry of data.lines, numbered
from 1. -/
def render_rich (d : Document) : Except String (List StyledLine) :=
  match rich_lines 1 d.lines with
  | .error m => .error m
  | .ok body => .ok (rich_header d.metadata :: [] :: body)

/-- One colored run emitted by render_ansi (lines 87-90): the token text
wrapped in a 24-bit ANSI color whose components are parsed from the hex
slices color[1:3], color[3:5], color[5:7]. -/
def ansi_token : RawToken → Except String String
  | [_, value, color] =>
    match int16 (str_slice color 1 3) with
    | .error m => .error m
    | .ok r =>
      match int16 (str_slice color 3 5) with
      | .error m => .error m
      | .ok g =>
        match int16 (str_slice color 5 7) with
        | .error m => .error m
        | .ok b =>
          .ok ("\x1b[38;2;" ++ toString r ++ ";" ++ toString g ++ ";"
               ++ toString b ++ "m" ++ value ++ "\x1b[0m")
  | _ => .error "cannot unpack token"

def ansi_tokens : List RawToken → Except String String
  | [] => .ok ""
  | t :: ts =>
    match ansi_token t with
    | .error m => .error m
    | .ok s =>
      match ansi_tokens ts with
      | .error m => .error m
      | .ok rest => .ok (s ++ rest)

/-- One printed row of render_ansi (lines 85-91): the dim five-wide line
number, the reset, one space, then the token runs joined with no separator. -/
def ansi_line (i : Nat) (toks : List RawToken) : Except String String :=
  match ansi_tokens toks with
  | .error m => .error m
  | .ok body => .ok ("\x1b[2m" ++ fmt5d i ++ "\x1b[0m " ++ body)

def ansi_lines (i : Nat) : List (List RawToken) → Except String (List String)
  | [] => .ok []
  | l :: ls =>
    match ansi_line i l with
    | .error m => .error m
    | .ok r =>
      match ansi_lines (i + 1) ls with
      | .error m => .error m
      | .ok rest => .ok (r :: rest)

/-- The header print of render_ansi (line 83); the trailing newline is the
blank line of the f-string. -/
def ansi_header (meta : Metadata) : String :=
  "━━━ " ++ meta.filename ++ " │ " ++ toString meta.line_count ++ " lines │ temp: "
    ++ meta.temperature ++ " │ mood: " ++ meta.mood ++ " ━━━\n"

/-- colorhymn_rich.render_ansi (lines 80-91): the sequence of printed
strings — header first, then one row per entry of data.lines, numbered
from 1. -/
def render_ansi (d : Document) : Except String (List String) :=
  match ansi_lines 1 d.lines with
  | .error m => .error m
  | .ok body => .ok (ansi_header d.metadata :: body)

/-- Result of colorhymn_rich.main (lines 94-113): usage exit, the Error
diagnostic with exit status 1 from the except branch, or the rendered
output of the chosen backend. -/
inductive MainResult where
  | usage
  | errorExit (msg : String)
  | okRich (out : List StyledLine)
  | okAnsi (out : List String)
deriving DecidableEq, Repr

def exit_code : MainResult → Nat
  | .usage => 1
  | .errorExit _ => 1
  | .okRich _ => 0
  | .okAnsi _ => 0

/-- colorhymn_rich.main: argument check, fetch, then the backend selected by
RICH_AVAILABLE; every exception becomes the Error diagnostic and exit 1. -/
def main_result (richAvailable : Bool) (hasArg : Bool) (r : ProcResult) : MainResult :=
  if hasArg then
    match colorize_file r with
    | .error e => .errorExit ("Error: " ++ fetchErrMsg e)
    | .ok d =>
      if richAvailable then
        match render_rich d with
        | .ok out => .okRich out
        | .error m => .errorExit ("Error: " ++ m)
      else
        match render_ansi d with
        | .ok out => .okAnsi out
        | .error m => .errorExit ("Error: " ++ m)
  else .usage

end Rich

namespace Viewer

/-- One row mounted by ColorhymnApp.render_log (lines 190-200): a non-empty
token list gets the dim line number followed by the styled tokens; an empty
one gets just the dim line number. -/
def log_line (i : Nat) (toks : List RawToken) : Except String StyledLine :=
  match toks with
  | [] => .ok [(fmt5d i ++ " ", "dim")]
  | _ =>
    match styled_tokens toks with
    | .ok segs => .ok ((fmt5d i ++ " ", "dim") :: segs)
    | .error m => .error m

def log_lines (i : Nat) : List (List RawToken) → Except String (List StyledLine)
  | [] => .ok []
  | l :: ls =>
    match log_line i l with
    | .error m => .error m
    | .ok r =>
      match log_lines (i + 1) ls with
      | .error m => .error m
      | .ok rest => .ok (r :: rest)

/-- Info bar Text of ColorhymnApp.render_log (lines 162-185). The mood color
is looked up from the mood field itself (line 182). -/
def info_bar (meta : Metadata) : StyledLine :=
  let temp_color := temp_colors meta.temperature
  let mood_color := temp_colors meta.mood
  [(" " ++ meta.filename ++ " ", "bold"),
   ("│ " ++ toString meta.line_count ++ " lines ", "dim"),
   ("│ temp: ", "dim"),
   (meta.temperature, temp_color),
   (" │ mood: ", "dim"),
   (meta.mood, mood_color)]

/-- ColorhymnApp.render_log (lines 154-200): the info bar contents together
with the rows mounted into the log container, one per entry of data.lines. -/
def render_log (d : Document) : Except String (StyledLine × List StyledLine) :=
  match log_lines 1 d.lines with
  | .error m => .error m
  | .ok rows => .ok (info_bar d.metadata, rows)

/-- Outcome of ColorhymnApp.load_file (lines 122-152): either some notify
call with its message and severity, or the loaded document with what
render_log produced for it. -/
inductive LoadResult where
  | notified (msg : String) (severity : String)
  | loaded (d : Document) (bar : StyledLine) (rows : List StyledLine)
deriving DecidableEq, Repr

/-- ColorhymnApp.load_file: runs the classifier; a non-zero exit status, a
stdout without a brace, a JSON parse failure, a timeout, and any exception
out of render_log each become a notification; otherwise the parsed document
is rendered. -/
def load_file (r : ProcResult) : LoadResult :=
  match r with
  | .timedOut => .notified "Colorhymn timed out" "error"
  | .completed rc out err =>
    if rc ≠ 0 then .notified ("Error: " ++ err) "error"
    else
      match str_find out '\x7b' with
      | none => .notified "No JSON output from colorhymn" "error"
      | some i =>
        match json_loads (str_drop out i) with
        | .error m => .notified ("JSON parse error: " ++ m) "error"
        | .ok d =>
          match render_log d with
          | .error m => .notified ("Error: " ++ m) "error"
          | .ok (bar, rows) => .loaded d bar rows

/-- The input events of ColorhymnApp: the mount event (which triggers
load_file) and the eight key bindings of BINDINGS (lines 96-105). -/
inductive ViewerEvent where
  | mount (r : ProcResult)
  | key_q
  | key_search
  | key_top
  | key_bottom
  | key_down
  | key_up
  | key_pgdn
  | key_pgup
deriving DecidableEq, Repr

/-- What one event does to the running app: quit it, show a notification, or
keep going (scrolling and successful loads). -/
inductive StepOutcome where
  | exited
  | notified (msg : String) (severity : String)
  | continued
deriving DecidableEq, Repr

/-- Dispatch of ColorhymnApp events: action_quit for q, the not-implemented
notification of action_search (lines 226-227), scrolling for the other keys,
and load_file on mount. -/
def step : ViewerEvent → StepOutcome
  | .mount r =>
    match load_file r with
    | .notified m s => .notified m s
    | .loaded _ _ _ => .continued
  | .key_q => .exited
  | .key_search => .notified "Search not yet implemented" "warning"
  | .key_top => .continued
  | .key_bottom => .continued
  | .key_down => .continued
  | .key_up => .continued
  | .key_pgdn => .continued
  | .key_pgup => .continued

/-- Modelled from the spec: the ViewportState of section 3 and the scroll
semantics of section 4.4. The navigation actions of ColorhymnApp
(colorhymn_viewer.py lines 202-224) delegate to the Textual
ScrollableContainer methods scroll_home, scroll_end, scroll_relative,
scroll_page_down and scroll_page_up, whose code is not part of src/. -/
structure ViewportState where
  scroll_offset : Int
  viewport_height : Int
deriving DecidableEq, Repr

/-- Modelled from the spec: the greatest reachable offset,
max(0, line_count - viewport_height). -/
def max_offset (line_count : Int) (v : ViewportState) : Int :=
  max 0 (line_count - v.viewport_height)

/-- Modelled from the spec: clamping of a candidate offset into
the interval from 0 to max_offset. -/
def clamp_offset (line_count : Int) (v : ViewportState) (x : Int) : Int :=
  max 0 (min x (max_offset line_count v))

/-- Modelled from the spec: scroll-to-top (the g binding, scroll_home). -/
def action_scroll_top (line_count : Int) (v : ViewportState) : ViewportState :=
  { v with scroll_offset := 0 }

/-- Modelled from the spec: scroll-to-bottom (the G binding, scroll_end). -/
def action_scroll_bottom (line_count : Int) (v : ViewportState) : ViewportState :=
  { v with scroll_offset := max_offset line_count v }

/-- Modelled from the spec: line down (the j binding, scroll_relative y=1). -/
def action_scroll_down (line_count : Int) (v : ViewportState) : ViewportState :=
  { v with scroll_offset := clamp_offset line_count v (v.scroll_offset + 1) }

/-- Modelled from the spec: line up (the k binding, scroll_relative y=-1). -/
def action_scroll_up (line_count : Int) (v : ViewportState) : ViewportState :=
  { v with scroll_offset := clamp_offset line_count v (v.scroll_offset - 1) }

/-- Modelled from the spec: page down (the ctrl+d binding, scroll_page_down). -/
def action_page_down (line_count : Int) (v : ViewportState) : ViewportState :=
  { v with scroll_offset := clamp_offset line_count v (v.scroll_offset + v.viewport_height) }

/-- Modelled from the spec: page up (the ctrl+u binding, scroll_page_up). -/
def action_page_up (line_count : Int) (v : ViewportState) : ViewportState :=
  { v with scroll_offset := clamp_offset line_count v (v.scroll_offset - v.viewport_height) }

end Viewer

/- Helpers for stating the claims: visible text of a raw ANSI string,
   substring occurrence, and well-formedness of tokens. -/

def stripAux : Bool → List Char → List Char
  | _, [] => []
  | false, c :: cs => if c = '\x1b' then stripAux true cs else c :: stripAux false cs
  | true, c :: cs => if c = 'm' then stripAux false cs else stripAux true cs

/-- Visible text of a raw ANSI string: every escape sequence, from an ESC
character up to the following letter m, removed. -/
def strip_ansi (s : String) : String :=
  String.mk (stripAux false s.data)

def startsWithChars : List Char → List Char → Bool
  | [], _ => true
  | _ :: _, [] => false
  | p :: ps, c :: cs => p = c && startsWithChars ps cs

def occursInChars (p : List Char) : List Char → Bool
  | [] => p.isEmpty
  | c :: cs => startsWithChars p (c :: cs) || occursInChars p cs

/-- Substring occurrence: does sub occur contiguously inside s. -/
def containsSub (s sub : String) : Bool :=
  occursInChars sub.data s.data

/-- A well-formed color string: a number sign followed by exactly six
hexadecimal digits. -/
def good_color (s : String) : Bool :=
  match s.data with
  | '#' :: rest => rest.length = 6 && rest.all (fun c => (hexDigitVal c).isSome)
  | _ => false

/-- A well-formed token as both renderers expect it: kind, text and a
well-formed color, the text free of ESC characters. -/
def good_token (t : RawToken) : Bool :=
  match t with
  | [_, v, c] => good_color c && v.data.all (fun ch => ch ≠ '\x1b')
  | _ => false

/-- All tokens of all lines of a document are well-formed. -/
def good_doc (d : Document) : Bool :=
  d.lines.all (fun l => l.all good_token)

/- Definitions written from the spec's words, for comparison with the
   embedded renderer (the refinement side of the row-format claim). -/

/-- The line number right-aligned in a field of five characters. -/
def spec_pad (i : Nat) : String :=
  if (toString i).length < 5 then
    String.mk (List.replicate (5 - (toString i).length) ' ') ++ toString i
  else toString i

/-- Decimal value of a pair of hexadecimal digits. -/
def hexPairVal (a b : Char) : Nat :=
  16 * (hexDigitVal a).getD 0 + (hexDigitVal b).getD 0

/-- One token as the spec words it: ESC then 38;2;R;G;B then m, the token
text, then the reset, where R, G, B are the decimal values of the three hex
pairs of the six-digit color. -/
def spec_token_run (t : RawToken) : String :=
  match t with
  | [_, v, c] =>
    match c.data with
    | [_, a, b, d, e, f, g] =>
      "\x1b[38;2;" ++ toString (hexPairVal a b) ++ ";" ++ toString (hexPairVal d e) ++ ";"
        ++ toString (hexPairVal f g) ++ "m" ++ v ++ "\x1b[0m"
    | _ => ""
  | _ => ""

def concat_strs (l : List String) : String :=
  l.foldr (fun a b => a ++ b) ""

/-- The whole raw row as the spec words it: ESC[2m, the right-aligned line
number, ESC[0m, one space, then the token runs concatenated with no
separators. -/
def spec_ansi_row (i : Nat) (toks : List RawToken) : String :=
  "\x1b[2m" ++ spec_pad i ++ "\x1b[0m" ++ " " ++ concat_strs (toks.map spec_token_run)

/-- Text field of a well-formed token. -/
def token_text (t : RawToken) : String :=
  t.getD 1 ""

/- Concrete inputs used by the closed theorems below. -/

def c1_meta : Metadata :=
  { filename := "app.log", line_count := 1, temperature := "critical", mood := "cool" }

def c2_stdout : String :=
  "\x7b\"metadata\":\x7b\"filename\":\"a.log\",\"line_count\":1,\"temperature\":\"warm\",\"mood\":\"cool\"\x7d,\"lines\":[[]]\x7d"

def c2_doc : Document :=
  { metadata := { filename := "a.log", line_count := 1, temperature := "warm", mood := "cool" },
    lines := [[]] }

def c3_stdout : String :=
  "\x7b\"metadata\":\x7b\"filename\":\"b.log\",\"line_count\":10,\"temperature\":\"cool\",\"mood\":\"warm\"\x7d,\"lines\":[[],[[\"k\",\"hi\",\"#FF0000\"]]]\x7d"

def c3_doc : Document :=
  { metadata := { filename := "b.log", line_count := 10, temperature := "cool", mood := "warm" },
    lines := [[], [["k", "hi", "#FF0000"]]] }

def c4_json : String :=
  "\x7b\"metadata\":\x7b\"filename\":\"c.log\",\"line_count\":0,\"temperature\":\"neutral\",\"mood\":\"neutral\"\x7d,\"lines\":[]\x7d"

def c10_meta : Metadata :=
  { filename := "d.log", line_count := 1, temperature := "neutral", mood := "neutral" }

def c10_bad_arity_doc : Document :=
  { metadata := c10_meta, lines := [[["k", "hi"]]] }

def c10_bad_color_doc : Document :=
  { metadata := c10_meta, lines := [[["k", "hi", "#GG0000"]]] }

def c10_bad_stdout : String :=
  "\x7b\"metadata\":\x7b\"filename\":\"d.log\",\"line_count\":1,\"temperature\":\"neutral\",\"mood\":\"neutral\"\x7d,\"lines\":[[[\"k\",\"hi\"]]]\x7d"

def c10_good_doc : Document :=
  { metadata := c10_meta, lines := [[["k", "hi", "#FF0000"], ["w", " there", "#00FF00"]], []] }

/-- C1: at temperature critical and mood cool, render_rich styles the mood
text red — the color resolved from the temperature field — while render_log
styles it cyan, the palette lookup of the mood string itself: the static
renderer does not resolve the mood color from the mood string. -/
theorem C1_mood_color_from_temperature :
    Rich.rich_header c1_meta =
      [("━━━ app.log ", "bold"), ("│ 1 lines ", "dim"), ("│ temp: ", ""),
       ("critical", "red"), (" │ mood: ", ""), ("cool", "red"), (" ━━━", "")]
    ∧ Viewer.info_bar c1_meta =
      [(" app.log ", "bold"), ("│ 1 lines ", "dim"), ("│ temp: ", "dim"),
       ("critical", "red"), (" │ mood: ", "dim"), ("cool", "cyan")]
    ∧ temp_colors "cool" = "cyan" ∧ ("red" : String) ≠ "cyan" :=
  ⟨rfl, rfl, rfl, by decide⟩

/-- C2 counterexample: a subprocess exit status of 1 with parseable JSON on
standard output still yields a Document from the static fetch, which never
inspects the exit status. -/
theorem C2_nonzero_exit_still_document :
    Rich.colorize_file (.completed 1 c2_stdout "boom") = .ok c2_doc := by
  rfl

/-- C2 amended: the interactive viewer fails on every non-zero exit status
with the error notification carrying the standard-error content and never
loads a document, while the static fetch ignores the exit status entirely:
its result is the same for any two exit statuses. -/
theorem C2_exit_status_handling :
    (∀ (rc : Int) (out err : String), rc ≠ 0 →
        Viewer.load_file (.completed rc out err) = .notified ("Error: " ++ err) "error")
    ∧ ∀ (rc rc2 : Int) (out err : String),
        Rich.colorize_file (.completed rc out err) = Rich.colorize_file (.completed rc2 out err) := by
  constructor
  · intro rc out err h
    simp [Viewer.load_file, h]
  · intro rc rc2 out err
    rfl

theorem C2_exit_status_handling_witness :
    Viewer.load_file (.completed 1 "" "boom") = .notified ("Error: " ++ "boom") "error" :=
  C2_exit_status_handling.1 1 "" "boom" (by decide)

/-- C6: a timed-out classifier run makes the static fetch fail with the
propagated TimeoutExpired, makes the viewer notify that colorhymn timed out
without exiting, and the timeout both scripts pass to subprocess.run is 30
seconds. -/
theorem C6_timeout_behavior :
    Rich.colorize_file .timedOut = .error .timeoutExpired
    ∧ Viewer.load_file .timedOut = .notified "Colorhymn timed out" "error"
    ∧ Viewer.step (.mount .timedOut) = .notified "Colorhymn timed out" "error"
    ∧ timeout_seconds = 30 :=
  ⟨rfl, rfl, rfl, rfl⟩

/-- C9: the semantic resolution is total — each of the seven names maps to
its palette color and every other string maps to white. -/
theorem C9_palette_total :
    temp_colors "cool" = "cyan" ∧ temp_colors "neutral" = "white"
    ∧ temp_colors "elevated" = "yellow" ∧ temp_colors "uneasy" = "yellow"
    ∧ temp_colors "troubled" = "orange1" ∧ temp_colors "warm" = "orange1"
    ∧ temp_colors "critical" = "red"
    ∧ ∀ s : String,
        s ∉ ["cool", "neutral", "elevated", "uneasy", "troubled", "warm", "critical"] →
        temp_colors s = "white" := by
  refine ⟨rfl, rfl, rfl, rfl, rfl, rfl, rfl, ?_⟩
  intro s hs
  simp only [List.mem_cons, List.not_mem_nil, or_false, not_or] at hs
  obtain ⟨h1, h2, h3, h4, h5, h6, h7⟩ := hs
  simp [temp_colors, h1, h2, h3, h4, h5, h6, h7]

theorem C9_palette_total_witness :
    temp_colors "anomalous" = "white" :=
  C9_palette_total.2.2.2.2.2.2.2 "anomalous" (by decide)

/-- C4 counterexample: on a standard output holding no brace, the viewer
notifies with a fixed message that does not include the standard-error
text. -/
theorem C4_viewer_diagnostic_omits_stderr :
    Viewer.load_file (.completed 0 "warning only" "boom") =
      .notified "No JSON output from colorhymn" "error"
    ∧ containsSub "No JSON output from colorhymn" "boom" = false :=
  ⟨rfl, by decide⟩

/-- C7: every notification-worthy condition leaves the viewer running —
mounting never exits whatever the classifier outcome, each load failure
(timeout, non-zero exit, missing JSON, parse error) surfaces as its notify
call, search notifies that it is not implemented — and the only event that
exits is the q binding. -/
theorem C7_notifications_not_fatal :
    (∀ r : ProcResult, Viewer.step (.mount r) ≠ .exited)
    ∧ (∀ r m s, Viewer.load_file r = .notified m s → Viewer.step (.mount r) = .notified m s)
    ∧ Viewer.load_file .timedOut = .notified "Colorhymn timed out" "error"
    ∧ (∀ (rc : Int) (out err : String), rc ≠ 0 →
        Viewer.load_file (.completed rc out err) = .notified ("Error: " ++ err) "error")
    ∧ (∀ (out err : String), str_find out '\x7b' = none →
        Viewer.load_file (.completed 0 out err) = .notified "No JSON output from colorhymn" "error")
    ∧ (∀ (out err m : String) (i : Nat), str_find out '\x7b' = some i →
        json_loads (str_drop out i) = .error m →
        Viewer.load_file (.completed 0 out err) = .notified ("JSON parse error: " ++ m) "error")
    ∧ Viewer.step .key_search = .notified "Search not yet implemented" "warning"
    ∧ Viewer.step .key_q = .exited
    ∧ (∀ e, Viewer.step e = .exited → e = .key_q) := by
  refine ⟨?_, ?_, rfl, ?_, ?_, ?_, rfl, rfl, ?_⟩
  · intro r
    cases h : Viewer.load_file r <;> simp [Viewer.step, h]
  · intro r m s h
    simp [Viewer.step, h]
  · intro rc out err h
    simp [Viewer.load_file, h]
  · intro out err h
    simp [Viewer.load_file, h]
  · intro out err m i h1 h2
    simp [Viewer.load_file, h1, h2]
  · intro e h
    cases e with
    | mount r =>
      exfalso
      cases hl : Viewer.load_file r <;> simp [Viewer.step, hl] at h
    | key_q => rfl
    | key_search => simp [Viewer.step] at h
    | key_top => simp [Viewer.step] at h
    | key_bottom => simp [Viewer.step] at h
    | key_down => simp [Viewer.step] at h
    | key_up => simp [Viewer.step] at h
    | key_pgdn => simp [Viewer.step] at h
    | key_pgup => simp [Viewer.step] at h

theorem C7_notifications_not_fatal_witness :
    Viewer.step (.mount (.completed 0 "no output" "x")) =
      .notified "No JSON output from colorhymn" "error" :=
  C7_notifications_not_fatal.2.1 (.completed 0 "no output" "x")
    "No JSON output from colorhymn" "error"
    (C7_notifications_not_fatal.2.2.2.2.1 "no output" "x" (by decide))

/-- C8: with a positive viewport height and an in-range offset, scroll-to-top
yields offset 0, scroll-to-bottom yields max(0, line_count - height), the
line and page motions are the corresponding clamped adjustments, every
action's result stays in the interval from 0 to max_offset, and page-down at
the maximal offset leaves the offset unchanged. -/
theorem C8_viewport_clamping (lc : Int) (v : Viewer.ViewportState)
    (hh : 0 < v.viewport_height)
    (h0 : 0 ≤ v.scroll_offset) (hm : v.scroll_offset ≤ Viewer.max_offset lc v) :
    (Viewer.action_scroll_top lc v).scroll_offset = 0
    ∧ (Viewer.action_scroll_bottom lc v).scroll_offset = max 0 (lc - v.viewport_height)
    ∧ (Viewer.action_scroll_down lc v).scroll_offset
        = Viewer.clamp_offset lc v (v.scroll_offset + 1)
    ∧ (Viewer.action_scroll_up lc v).scroll_offset
        = Viewer.clamp_offset lc v (v.scroll_offset - 1)
    ∧ (Viewer.action_page_down lc v).scroll_offset
        = Viewer.clamp_offset lc v (v.scroll_offset + v.viewport_height)
    ∧ (Viewer.action_page_up lc v).scroll_offset
        = Viewer.clamp_offset lc v (v.scroll_offset - v.viewport_height)
    ∧ (∀ x : Int, 0 ≤ Viewer.clamp_offset lc v x
        ∧ Viewer.clamp_offset lc v x ≤ Viewer.max_offset lc v)
    ∧ 0 ≤ (Viewer.action_scroll_top lc v).scroll_offset
    ∧ (Viewer.action_scroll_top lc v).scroll_offset ≤ Viewer.max_offset lc v
    ∧ (Viewer.action_scroll_bottom lc v).scroll_offset ≤ Viewer.max_offset lc v
    ∧ (v.scroll_offset = Viewer.max_offset lc v →
        (Viewer.action_page_down lc v).scroll_offset = v.scroll_offset) := by
  refine ⟨rfl, rfl, rfl, rfl, rfl, rfl, ?_, ?_, ?_, ?_, ?_⟩
  · intro x
    simp only [Viewer.clamp_offset, Viewer.max_offset, max_def, min_def]
    split_ifs <;> omega
  · simp [Viewer.action_scroll_top]
  · simp only [Viewer.action_scroll_top, Viewer.max_offset, max_def]
    split_ifs <;> omega
  · simp only [Viewer.action_scroll_bottom, Viewer.max_offset, max_def]
    split_ifs <;> omega
  · intro hmax
    simp only [Viewer.max_offset, max_def] at hmax
    simp only [Viewer.action_page_down, Viewer.clamp_offset, Viewer.max_offset,
      max_def, min_def]
    split_ifs at hmax ⊢ <;> omega

theorem C8_viewport_clamping_witness :
    (Viewer.action_scroll_bottom 100 ⟨0, 20⟩).scroll_offset = 80
    ∧ (Viewer.action_page_down 100 ⟨80, 20⟩).scroll_offset = 80 := by
  have h1 := C8_viewport_clamping 100 ⟨0, 20⟩ (by decide) (by decide) (by decide)
  have h2 := C8_viewport_clamping 100 ⟨80, 20⟩ (by decide) (by decide) (by decide)
  constructor
  · rw [h1.2.1]
    decide
  · rw [h2.2.2.2.2.2.2.2.2.2.2 (by decide)]

/- Helper lemmas: bounds of the hex digits, success of int16 on hex digit
strings, and decimal digit characters. -/

theorem hexValAux_some {l : List Char} (h : ∀ c ∈ l, (hexDigitVal c).isSome) :
    ∀ acc : Nat, ∃ v, hexValAux l acc = some v := by
  induction l with
  | nil => intro acc; exact ⟨acc, rfl⟩
  | cons c cs ih =>
    intro acc
    have hc : (hexDigitVal c).isSome := h c (by simp)
    obtain ⟨vc, hvc⟩ := Option.isSome_iff_exists.mp hc
    obtain ⟨v, hv⟩ := ih (fun x hx => h x (by simp [hx])) (16 * acc + vc)
    exact ⟨v, by simp [hexValAux, hvc, hv]⟩

theorem int16_ok {l : List Char} (hne : l ≠ []) (h : ∀ c ∈ l, (hexDigitVal c).isSome) :
    ∃ v, int16 (String.mk l) = .ok v := by
  obtain ⟨v, hv⟩ := hexValAux_some h 0
  cases l with
  | nil => exact absurd rfl hne
  | cons c cs => exact ⟨v, by simp [int16, hv]⟩

/-- The two-digit value computed by int16 agrees with hexPairVal. -/
theorem int16_pair {a b : Char} {va vb : Nat}
    (ha : hexDigitVal a = some va) (hb : hexDigitVal b = some vb) :
    int16 (String.mk [a, b]) = .ok (hexPairVal a b) := by
  simp [int16, hexValAux, ha, hb, hexPairVal]

theorem digitChar_digit : ∀ m : Nat, m < 10 → (Nat.digitChar m).isDigit = true := by
  decide

theorem toDigitsCore_digits (f : Nat) : ∀ (n : Nat) (acc : List Char),
    (∀ c ∈ acc, c.isDigit = true) →
    ∀ c ∈ Nat.toDigitsCore 10 f n acc, c.isDigit = true := by
  induction f with
  | zero =>
    intro n acc hacc c hc
    exact hacc c hc
  | succ f ih =>
    intro n acc hacc c hc
    have hd : (Nat.digitChar (n % 10)).isDigit = true :=
      digitChar_digit _ (Nat.mod_lt _ (by decide))
    simp only [Nat.toDigitsCore] at hc
    split at hc
    · rcases List.mem_cons.mp hc with h | h
      · rw [h]; exact hd
      · exact hacc c h
    · refine ih (n / 10) (Nat.digitChar (n % 10) :: acc) ?_ c hc
      intro x hx
      rcases List.mem_cons.mp hx with h | h
      · rw [h]; exact hd
      · exact hacc x h

/-- Every character of the decimal representation of a natural number is a
digit. -/
theorem repr_digits (n : Nat) : ∀ c ∈ (toString n).data, c.isDigit = true := by
  intro c hc
  have : (toString n).data = Nat.toDigitsCore 10 (n + 1) n [] := rfl
  rw [this] at hc
  exact toDigitsCore_digits (n + 1) n [] (by intro x hx; cases hx) c hc

theorem digit_ne {c : Char} (h : c.isDigit = true) : c ≠ 'm' ∧ c ≠ '\x1b' := by
  constructor <;> rintro rfl <;> exact absurd h (by decide)

/- Escape stripping lemmas. -/

theorem stripAux_false_clean {u : List Char} (h : ∀ c ∈ u, c ≠ '\x1b') (s : List Char) :
    stripAux false (u ++ s) = u ++ stripAux false s := by
  induction u with
  | nil => rfl
  | cons c cs ih =>
    have hc : c ≠ '\x1b' := h c (by simp)
    simp only [List.cons_append, stripAux, if_neg hc, List.append_eq]
    rw [ih (fun x hx => h x (by simp [hx]))]

theorem stripAux_true_scan {u : List Char} (h : ∀ c ∈ u, c ≠ 'm') (s : List Char) :
    stripAux true (u ++ 'm' :: s) = stripAux false s := by
  induction u with
  | nil => simp [stripAux]
  | cons c cs ih =>
    have hc : c ≠ 'm' := h c (by simp)
    simp only [List.cons_append, stripAux, if_neg hc, List.append_eq]
    exact ih (fun x hx => h x (by simp [hx]))

theorem strip_esc_chunk {u : List Char} (h : ∀ c ∈ u, c ≠ 'm') (s : List Char) :
    stripAux false ('\x1b' :: (u ++ 'm' :: s)) = stripAux false s := by
  simp only [stripAux, if_pos rfl]
  exact stripAux_true_scan h s

theorem exists_six {α : Type} (l : List α) (h : l.length = 6) :
    ∃ a b c d e f, l = [a, b, c, d, e, f] := by
  cases l with
  | nil => simp at h
  | cons a l1 =>
  cases l1 with
  | nil => simp at h
  | cons b l2 =>
  cases l2 with
  | nil => simp at h
  | cons c l3 =>
  cases l3 with
  | nil => simp at h
  | cons d l4 =>
  cases l4 with
  | nil => simp at h
  | cons e l5 =>
  cases l5 with
  | nil => simp at h
  | cons f l6 =>
  cases l6 with
  | nil => exact ⟨a, b, c, d, e, f, rfl⟩
  | cons g l7 => simp at h

theorem good_token_shape {t : RawToken} (h : good_token t = true) :
    ∃ k v c, t = [k, v, c] ∧ good_color c = true
      ∧ (v.data.all (fun ch => ch ≠ '\x1b')) = true := by
  unfold good_token at h
  split at h
  · rename_i k v c
    rw [Bool.and_eq_true] at h
    exact ⟨k, v, c, rfl, h.1, h.2⟩
  · exact absurd h (by simp)

theorem good_color_shape {s : String} (h : good_color s = true) :
    ∃ a b c d e f, s.data = ['#', a, b, c, d, e, f]
      ∧ ∀ x ∈ [a, b, c, d, e, f], (hexDigitVal x).isSome = true := by
  unfold good_color at h
  split at h
  · rename_i rest heq
    rw [Bool.and_eq_true] at h
    obtain ⟨hlen, hall⟩ := h
    have h6 : rest.length = 6 := by simpa using hlen
    obtain ⟨a, b, c, d, e, f, rfl⟩ := exists_six rest h6
    refine ⟨a, b, c, d, e, f, heq, ?_⟩
    intro x hx
    exact List.all_eq_true.mp hall x hx
  · exact absurd h (by simp)

theorem fmt5d_eq_spec_pad (i : Nat) : fmt5d i = spec_pad i := by
  unfold fmt5d spec_pad
  split
  · rfl
  · rename_i hlen
    have h0 : 5 - (toString i).length = 0 := by omega
    rw [h0]
    apply String.ext
    rfl

theorem ansi_token_spec {t : RawToken} (h : good_token t = true) :
    Rich.ansi_token t = .ok (spec_token_run t) := by
  obtain ⟨k, v, c, rfl, hc, _⟩ := good_token_shape h
  obtain ⟨a, b, d, e, f, g, heq, hall⟩ := good_color_shape hc
  obtain ⟨va, hva⟩ := Option.isSome_iff_exists.mp (hall a (by simp))
  obtain ⟨vb, hvb⟩ := Option.isSome_iff_exists.mp (hall b (by simp))
  obtain ⟨vd, hvd⟩ := Option.isSome_iff_exists.mp (hall d (by simp))
  obtain ⟨ve, hve⟩ := Option.isSome_iff_exists.mp (hall e (by simp))
  obtain ⟨vf, hvf⟩ := Option.isSome_iff_exists.mp (hall f (by simp))
  obtain ⟨vg, hvg⟩ := Option.isSome_iff_exists.mp (hall g (by simp))
  have s13 : str_slice c 1 3 = String.mk [a, b] := by
    simp [str_slice, heq]
  have s35 : str_slice c 3 5 = String.mk [d, e] := by
    simp [str_slice, heq]
  have s57 : str_slice c 5 7 = String.mk [f, g] := by
    simp [str_slice, heq]
  have i13 := int16_pair hva hvb
  have i35 := int16_pair hvd hve
  have i57 := int16_pair hvf hvg
  simp only [Rich.ansi_token, spec_token_run, s13, s35, s57, i13, i35, i57, heq]

theorem ansi_tokens_spec {ts : List RawToken} (h : ∀ t ∈ ts, good_token t = true) :
    Rich.ansi_tokens ts = .ok (concat_strs (ts.map spec_token_run)) := by
  induction ts with
  | nil => rfl
  | cons t ts ih =>
    have ht := ansi_token_spec (h t (by simp))
    have hts := ih (fun x hx => h x (by simp [hx]))
    simp only [Rich.ansi_tokens, ht, hts, List.map_cons]
    rfl

theorem ansi_line_spec (i : Nat) {toks : List RawToken}
    (h : ∀ t ∈ toks, good_token t = true) :
    Rich.ansi_line i toks = .ok (spec_ansi_row i toks) := by
  unfold Rich.ansi_line spec_ansi_row
  rw [ansi_tokens_spec h, fmt5d_eq_spec_pad]
  simp only [String.append_assoc]
  rfl

theorem str_data_append (a b : String) : (a ++ b).data = a.data ++ b.data := rfl

theorem digits_run_ne_m (r1 r2 r3 : Nat) :
    ∀ c ∈ ['[', '3', '8', ';', '2', ';']
        ++ ((toString r1).data ++ (';' :: ((toString r2).data ++ (';' :: (toString r3).data)))),
      c ≠ 'm' := by
  intro x hx
  simp only [List.mem_append, List.mem_cons, List.not_mem_nil, or_false] at hx
  rcases hx with (h | h | h | h | h | h) | h | h | h | h | h
  · subst h; decide
  · subst h; decide
  · subst h; decide
  · subst h; decide
  · subst h; decide
  · subst h; decide
  · exact (digit_ne (repr_digits r1 x h)).1
  · subst h; decide
  · exact (digit_ne (repr_digits r2 x h)).1
  · subst h; decide
  · exact (digit_ne (repr_digits r3 x h)).1

theorem spec_pad_clean (i : Nat) : ∀ c ∈ (spec_pad i).data, c ≠ '\x1b' := by
  intro x hx
  unfold spec_pad at hx
  split at hx
  · have hx2 : x ∈ List.replicate (5 - (toString i).length) ' ' ++ (toString i).data := hx
    rcases List.mem_append.mp hx2 with h | h
    · have := List.eq_of_mem_replicate h
      subst this; decide
    · exact (digit_ne (repr_digits i x h)).2
  · exact (digit_ne (repr_digits i x hx)).2

theorem strip_runs {toks : List RawToken} (h : ∀ t ∈ toks, good_token t = true) :
    stripAux false (concat_strs (toks.map spec_token_run)).data
      = (concat_strs (toks.map token_text)).data := by
  induction toks with
  | nil => rfl
  | cons t ts ih =>
    obtain ⟨k, v, c, rfl, hc, hv⟩ := good_token_shape (h t (by simp))
    obtain ⟨a, b, d, e, f, g, heq, _⟩ := good_color_shape hc
    have hrest := ih (fun x hx => h x (by simp [hx]))
    have hshape : (concat_strs (([k, v, c] :: ts).map spec_token_run)).data
        = '\x1b' :: ((['[', '3', '8', ';', '2', ';']
            ++ ((toString (hexPairVal a b)).data
              ++ (';' :: ((toString (hexPairVal d e)).data
                ++ (';' :: (toString (hexPairVal f g)).data)))))
          ++ 'm' :: (v.data
            ++ ('\x1b' :: (['[', '0']
              ++ 'm' :: (concat_strs (ts.map spec_token_run)).data)))) := by
      show (spec_token_run [k, v, c] ++ concat_strs (ts.map spec_token_run)).data = _
      simp only [spec_token_run, heq, str_data_append, List.append_assoc,
        List.cons_append, List.singleton_append, List.nil_append]
    rw [hshape, strip_esc_chunk (digits_run_ne_m _ _ _)]
    have hvclean : ∀ x ∈ v.data, x ≠ '\x1b' := by
      intro x hx
      have := List.all_eq_true.mp hv x hx
      simpa using this
    rw [stripAux_false_clean hvclean, strip_esc_chunk (by decide)]
    have htext : (concat_strs (([k, v, c] :: ts).map token_text)).data
        = v.data ++ (concat_strs (ts.map token_text)).data := by
      show (token_text [k, v, c] ++ concat_strs (ts.map token_text)).data = _
      rfl
    rw [htext, hrest]

theorem strip_spec_row (i : Nat) {toks : List RawToken}
    (h : ∀ t ∈ toks, good_token t = true) :
    strip_ansi (spec_ansi_row i toks)
      = spec_pad i ++ " " ++ concat_strs (toks.map token_text) := by
  apply String.ext
  unfold strip_ansi spec_ansi_row
  have hshape : ("\x1b[2m" ++ spec_pad i ++ "\x1b[0m" ++ " "
        ++ concat_strs (toks.map spec_token_run)).data
      = '\x1b' :: (['[', '2'] ++ 'm' :: ((spec_pad i).data
          ++ ('\x1b' :: (['[', '0']
            ++ 'm' :: (' ' :: (concat_strs (toks.map spec_token_run)).data))))) := by
    simp only [str_data_append, List.append_assoc, List.cons_append,
      List.singleton_append, List.nil_append]
  rw [hshape, strip_esc_chunk (by decide), stripAux_false_clean (spec_pad_clean i),
    strip_esc_chunk (by decide)]
  have hsp : stripAux false (' ' :: (concat_strs (toks.map spec_token_run)).data)
      = ' ' :: stripAux false (concat_strs (toks.map spec_token_run)).data := by
    simp [stripAux]
  rw [hsp, strip_runs h]
  show _ = ((spec_pad i ++ " ") ++ concat_strs (toks.map token_text)).data
  simp only [str_data_append, List.append_assoc]
  rfl

/-- C5: under well-formed tokens, the raw renderer's row is exactly the
format the spec words — ESC[2m, the line number right-aligned in five
characters, ESC[0m, one space, then for each token the 24-bit escape built
from the decimal values of its hex pairs, its text and the reset, with no
separators; an empty token line emits only the dim number prefix; and the
escape-stripped text of the row is the number prefix followed by the token
texts in order. -/
theorem C5_ansi_row_format (i : Nat) (toks : List RawToken)
    (h : ∀ t ∈ toks, good_token t = true) :
    Rich.ansi_line i toks = .ok (spec_ansi_row i toks)
    ∧ Rich.ansi_line i [] = .ok ("\x1b[2m" ++ fmt5d i ++ "\x1b[0m ")
    ∧ strip_ansi (spec_ansi_row i toks)
        = fmt5d i ++ " " ++ concat_strs (toks.map token_text) := by
  refine ⟨ansi_line_spec i h, ?_, ?_⟩
  · simp [Rich.ansi_line, Rich.ansi_tokens, String.append_empty]
  · rw [strip_spec_row i h, fmt5d_eq_spec_pad]

theorem C5_ansi_row_format_witness :
    Rich.ansi_line 1 [["k", "hi", "#FF0000"]]
      = .ok (spec_ansi_row 1 [["k", "hi", "#FF0000"]])
    ∧ strip_ansi (spec_ansi_row 1 [["k", "hi", "#FF0000"]])
        = fmt5d 1 ++ " " ++ concat_strs ([["k", "hi", "#FF0000"]].map token_text) :=
  ⟨(C5_ansi_row_format 1 [["k", "hi", "#FF0000"]] (by decide)).1,
   (C5_ansi_row_format 1 [["k", "hi", "#FF0000"]] (by decide)).2.2⟩

theorem styled_tokens_ok {l : List RawToken} (h : ∀ t ∈ l, good_token t = true) :
    ∃ segs, styled_tokens l = .ok segs := by
  induction l with
  | nil => exact ⟨[], rfl⟩
  | cons t ts ih =>
    obtain ⟨k, v, c, rfl, _, _⟩ := good_token_shape (h t (by simp))
    obtain ⟨segs, hsegs⟩ := ih (fun x hx => h x (by simp [hx]))
    exact ⟨(v, c) :: segs, by simp [styled_tokens, hsegs]⟩

theorem ansi_lines_struct {ls : List (List RawToken)}
    (h : ∀ l ∈ ls, ∀ t ∈ l, good_token t = true) :
    ∀ i, ∃ rows, Rich.ansi_lines i ls = .ok rows
      ∧ rows.length = ls.length
      ∧ ∀ j (hj : j < rows.length),
          ∃ rest, rows.get ⟨j, hj⟩ = "\x1b[2m" ++ fmt5d (i + j) ++ "\x1b[0m " ++ rest := by
  induction ls with
  | nil =>
    intro i
    exact ⟨[], rfl, rfl, by intro j hj; exact absurd hj (by simp)⟩
  | cons l ls ih =>
    intro i
    obtain ⟨rows, hrows, hlen, hidx⟩ := ih (fun x hx => h x (by simp [hx])) (i + 1)
    refine ⟨("\x1b[2m" ++ fmt5d i ++ "\x1b[0m " ++ concat_strs (l.map spec_token_run)) :: rows,
      ?_, by simp [hlen], ?_⟩
    · have hline : Rich.ansi_line i l
          = .ok ("\x1b[2m" ++ fmt5d i ++ "\x1b[0m " ++ concat_strs (l.map spec_token_run)) := by
        simp [Rich.ansi_line, ansi_tokens_spec (h l (by simp))]
      simp [Rich.ansi_lines, hline, hrows]
    · intro j hj
      cases j with
      | zero =>
        refine ⟨concat_strs (l.map spec_token_run), ?_⟩
        simp
      | succ j2 =>
        have hj2 : j2 < rows.length := by simpa using hj
        obtain ⟨rest, hr⟩ := hidx j2 hj2
        have e : i + 1 + j2 = i + (j2 + 1) := by omega
        rw [e] at hr
        exact ⟨rest, by simpa using hr⟩

theorem log_lines_struct {ls : List (List RawToken)}
    (h : ∀ l ∈ ls, ∀ t ∈ l, good_token t = true) :
    ∀ i, ∃ rows, Viewer.log_lines i ls = .ok rows
      ∧ rows.length = ls.length
      ∧ ∀ j (hj : j < rows.length),
          ∃ segs, rows.get ⟨j, hj⟩ = (fmt5d (i + j) ++ " ", "dim") :: segs := by
  induction ls with
  | nil =>
    intro i
    exact ⟨[], rfl, rfl, by intro j hj; exact absurd hj (by simp)⟩
  | cons l ls ih =>
    intro i
    obtain ⟨rows, hrows, hlen, hidx⟩ := ih (fun x hx => h x (by simp [hx])) (i + 1)
    obtain ⟨segs0, hsegs0⟩ := styled_tokens_ok (h l (by simp))
    have hline : ∃ segs, Viewer.log_line i l = .ok ((fmt5d i ++ " ", "dim") :: segs) := by
      cases l with
      | nil => exact ⟨[], rfl⟩
      | cons t rest =>
        refine ⟨segs0, ?_⟩
        simp [Viewer.log_line, hsegs0]
    obtain ⟨segs, hsegs⟩ := hline
    refine ⟨((fmt5d i ++ " ", "dim") :: segs) :: rows, ?_, by simp [hlen], ?_⟩
    · simp [Viewer.log_lines, hsegs, hrows]
    · intro j hj
      cases j with
      | zero => exact ⟨segs, by simp⟩
      | succ j2 =>
        have hj2 : j2 < rows.length := by simpa using hj
        obtain ⟨s2, hr⟩ := hidx j2 hj2
        have e : i + 1 + j2 = i + (j2 + 1) := by omega
        rw [e] at hr
        exact ⟨s2, by simpa using hr⟩

/-- C3: a line_count disagreeing with the actual number of entries is not
fatal — the fetch returns whatever document parsed regardless of the
mismatch — and each renderer emits exactly one row per entry of lines,
numbered consecutively from 1, while the line_count value reaches only the
header: replacing it changes the header alone and leaves every row as it
was. -/
theorem C3_line_count_informational (d : Document)
    (hmis : d.metadata.line_count ≠ (d.lines.length : Int))
    (hw : ∀ l ∈ d.lines, ∀ t ∈ l, good_token t = true) :
    (∀ (rc : Int) (out err : String) (i : Nat), str_find out '\x7b' = some i →
        json_loads (str_drop out i) = .ok d →
        Rich.colorize_file (.completed rc out err) = .ok d)
    ∧ (∃ rows, Rich.render_ansi d = .ok (Rich.ansi_header d.metadata :: rows)
        ∧ rows.length = d.lines.length
        ∧ (∀ j (hj : j < rows.length),
            ∃ rest, rows.get ⟨j, hj⟩ = "\x1b[2m" ++ fmt5d (1 + j) ++ "\x1b[0m " ++ rest)
        ∧ ∀ m : Int, Rich.render_ansi { d with metadata := { d.metadata with line_count := m } }
            = .ok (Rich.ansi_header { d.metadata with line_count := m } :: rows))
    ∧ (∃ rows, Viewer.render_log d = .ok (Viewer.info_bar d.metadata, rows)
        ∧ rows.length = d.lines.length
        ∧ (∀ j (hj : j < rows.length),
            ∃ segs, rows.get ⟨j, hj⟩ = (fmt5d (1 + j) ++ " ", "dim") :: segs)
        ∧ ∀ m : Int, Viewer.render_log { d with metadata := { d.metadata with line_count := m } }
            = .ok (Viewer.info_bar { d.metadata with line_count := m }, rows)) := by
  refine ⟨?_, ?_, ?_⟩
  · intro rc out err i hfind hparse
    simp [Rich.colorize_file, hfind, hparse]
  · obtain ⟨rows, hrows, hlen, hidx⟩ := ansi_lines_struct hw 1
    exact ⟨rows, by simp [Rich.render_ansi, hrows], hlen, hidx,
      fun m => by simp [Rich.render_ansi, hrows]⟩
  · obtain ⟨rows, hrows, hlen, hidx⟩ := log_lines_struct hw 1
    exact ⟨rows, by simp [Viewer.render_log, hrows], hlen, hidx,
      fun m => by simp [Viewer.render_log, hrows]⟩

theorem C3_line_count_informational_witness :
    Rich.colorize_file (.completed 0 c3_stdout "") = .ok c3_doc :=
  (C3_line_count_informational c3_doc (by decide) (by decide)).1 0 c3_stdout "" 0 rfl rfl

theorem findCharAux_hit {t : Char} :
    ∀ (a b : List Char) (i : Nat), (∀ c ∈ a, c ≠ t) →
      findCharAux t (a ++ t :: b) i = some (i + a.length) := by
  intro a
  induction a with
  | nil =>
    intro b i _
    simp [findCharAux]
  | cons c cs ih =>
    intro b i h
    have hc : c ≠ t := h c (by simp)
    simp only [List.cons_append, findCharAux, if_neg hc, List.append_eq]
    rw [ih b (i + 1) (fun x hx => h x (by simp [hx]))]
    congr 1
    simp
    omega
theorem findCharAux_miss {t : Char} :
    ∀ (l : List Char) (i : Nat), (∀ c ∈ l, c ≠ t) → findCharAux t l i = none := by
  intro l
  induction l with
  | nil => intro i _; rfl
  | cons c cs ih =>
    intro i h
    have hc : c ≠ t := h c (by simp)
    simp only [findCharAux, if_neg hc]
    exact ih (i + 1) (fun x hx => h x (by simp [hx]))

theorem str_find_first_brace {a b : String} (ha : ∀ c ∈ a.data, c ≠ '\x7b')
    (hb : ∃ rest, b.data = '\x7b' :: rest) :
    str_find (a ++ b) '\x7b' = some a.data.length
    ∧ str_drop (a ++ b) a.data.length = b := by
  obtain ⟨rest, hrest⟩ := hb
  constructor
  · unfold str_find
    have : (a ++ b).data = a.data ++ '\x7b' :: rest := by
      rw [str_data_append, hrest]
    rw [this, findCharAux_hit a.data rest 0 ha]
    simp
  · unfold str_drop
    rw [str_data_append, List.drop_left]

theorem startsWithChars_self : ∀ p : List Char, startsWithChars p p = true := by
  intro p
  induction p with
  | nil => rfl
  | cons c cs ih => simp [startsWithChars, ih]

theorem occursInChars_at_end (p : List Char) :
    ∀ pre : List Char, occursInChars p (pre ++ p) = true := by
  intro pre
  induction pre with
  | nil =>
    cases p with
    | nil => rfl
    | cons c cs =>
      simp only [List.nil_append, occursInChars]
      rw [startsWithChars_self]
      rfl
  | cons c cs ih =>
    simp only [List.cons_append, occursInChars, List.append_eq]
    rw [ih]
    simp

theorem containsSub_at_end (x err : String) : containsSub (x ++ err) err = true := by
  unfold containsSub
  have : (x ++ err).data = x.data ++ err.data := rfl
  rw [this]
  exact occursInChars_at_end err.data x.data

/-- C4 amended: both fetch paths locate the first brace in standard output
and parse the JSON from there, discarding everything before it; on a
standard output with no brace the static fetch raises the ValueError whose
message carries the raw standard-error text, while the interactive viewer
notifies with a fixed message that does not carry standard error. -/
theorem C4_first_brace_and_diagnostics :
    (∀ (rc : Int) (a b err : String), (∀ c ∈ a.data, c ≠ '\x7b') →
        (∃ rest, b.data = '\x7b' :: rest) →
        Rich.colorize_file (.completed rc (a ++ b) err)
          = Rich.colorize_file (.completed rc b err))
    ∧ (∀ (a b err : String), (∀ c ∈ a.data, c ≠ '\x7b') →
        (∃ rest, b.data = '\x7b' :: rest) →
        Viewer.load_file (.completed 0 (a ++ b) err)
          = Viewer.load_file (.completed 0 b err))
    ∧ (∀ (rc : Int) (out err : String), (∀ c ∈ out.data, c ≠ '\x7b') →
        Rich.colorize_file (.completed rc out err)
            = .error (.valueError ("No JSON output: " ++ err))
          ∧ containsSub ("No JSON output: " ++ err) err = true)
    ∧ (∀ (out err : String), (∀ c ∈ out.data, c ≠ '\x7b') →
        Viewer.load_file (.completed 0 out err)
          = .notified "No JSON output from colorhymn" "error") := by
  have hb0 : ∀ (b : String), (∃ rest, b.data = '\x7b' :: rest) →
      str_find b '\x7b' = some 0 ∧ str_drop b 0 = b := by
    intro b ⟨rest, hrest⟩
    constructor
    · unfold str_find
      rw [hrest]
      simp [findCharAux]
    · unfold str_drop
      simp
  refine ⟨?_, ?_, ?_, ?_⟩
  · intro rc a b err ha hb
    obtain ⟨hfind, hdrop⟩ := str_find_first_brace ha hb
    obtain ⟨hfind0, hdrop0⟩ := hb0 b hb
    have hdrop2 : str_drop (a ++ b) a.length = b := hdrop
    simp [Rich.colorize_file, hfind, hdrop, hdrop2, hfind0, hdrop0]
  · intro a b err ha hb
    obtain ⟨hfind, hdrop⟩ := str_find_first_brace ha hb
    obtain ⟨hfind0, hdrop0⟩ := hb0 b hb
    have hdrop2 : str_drop (a ++ b) a.length = b := hdrop
    simp [Viewer.load_file, hfind, hdrop, hdrop2, hfind0, hdrop0]
  · intro rc out err hout
    have hfind : str_find out '\x7b' = none := findCharAux_miss out.data 0 hout
    exact ⟨by simp [Rich.colorize_file, hfind], containsSub_at_end "No JSON output: " err⟩
  · intro out err hout
    have hfind : str_find out '\x7b' = none := findCharAux_miss out.data 0 hout
    simp [Viewer.load_file, hfind]

theorem C4_first_brace_and_diagnostics_witness :
    Rich.colorize_file (.completed 0 ("warning: build\n" ++ c4_json) "")
      = Rich.colorize_file (.completed 0 c4_json "") :=
  C4_first_brace_and_diagnostics.1 0 "warning: build\n" c4_json "" (by decide) ⟨_, rfl⟩

theorem rich_lines_ok {ls : List (List RawToken)}
    (h : ∀ l ∈ ls, ∀ t ∈ l, good_token t = true) :
    ∀ i, ∃ rows, Rich.rich_lines i ls = .ok rows := by
  induction ls with
  | nil => intro i; exact ⟨[], rfl⟩
  | cons l ls ih =>
    intro i
    obtain ⟨segs, hsegs⟩ := styled_tokens_ok (h l (by simp))
    obtain ⟨rows, hrows⟩ := ih (fun x hx => h x (by simp [hx])) (i + 1)
    exact ⟨((fmt5d i ++ " ", "dim") :: segs) :: rows,
      by simp [Rich.rich_lines, Rich.rich_line, hsegs, hrows]⟩

/-- C10: rendering is defined only under well-formed tokens — a document
holding a token of the wrong arity makes every renderer return the error
branch, a color that is not a number sign with six hex digits makes the raw
renderer return the error branch, the static entry point surfaces such a
document as the generic Error diagnostic with exit status 1, and every
document whose tokens are all well-formed renders in all three. -/
theorem C10_rendering_preconditions :
    (∃ m, Rich.render_ansi c10_bad_arity_doc = .error m)
    ∧ (∃ m, Rich.render_rich c10_bad_arity_doc = .error m)
    ∧ (∃ m, Viewer.render_log c10_bad_arity_doc = .error m)
    ∧ (∃ m, Rich.render_ansi c10_bad_color_doc = .error m)
    ∧ (∃ m, Rich.main_result false true (.completed 0 c10_bad_stdout "") = .errorExit m
        ∧ Rich.exit_code (.errorExit m) = 1)
    ∧ (∀ d : Document, (∀ l ∈ d.lines, ∀ t ∈ l, good_token t = true) →
        (∃ out, Rich.render_ansi d = .ok out)
        ∧ (∃ out, Rich.render_rich d = .ok out)
        ∧ (∃ out, Viewer.render_log d = .ok out)) := by
  refine ⟨⟨_, rfl⟩, ⟨_, rfl⟩, ⟨_, rfl⟩, ⟨_, rfl⟩, ⟨_, rfl, rfl⟩, ?_⟩
  intro d hw
  refine ⟨?_, ?_, ?_⟩
  · obtain ⟨rows, hrows, _, _⟩ := ansi_lines_struct hw 1
    exact ⟨Rich.ansi_header d.metadata :: rows, by simp [Rich.render_ansi, hrows]⟩
  · obtain ⟨rows, hrows⟩ := rich_lines_ok hw 1
    exact ⟨Rich.rich_header d.metadata :: [] :: rows, by simp [Rich.render_rich, hrows]⟩
  · obtain ⟨rows, hrows, _, _⟩ := log_lines_struct hw 1
    exact ⟨(Viewer.info_bar d.metadata, rows), by simp [Viewer.render_log, hrows]⟩

theorem C10_rendering_preconditions_witness :
    (∃ out, Rich.render_ansi c10_good_doc = .ok out)
    ∧ (∃ out, Rich.render_rich c10_good_doc = .ok out)
    ∧ (∃ out, Viewer.render_log c10_good_doc = .ok out) :=
  C10_rendering_preconditions.2.2.2.2.2 c10_good_doc (by decide)
